import Mathlib

/-!
Shallow embedding of the SightSound AI capture / speech / voice-command
coordination loop (React application) and its external-service adapters,
with theorems checking the natural-language specification against it.

Source files embedded:
- the main App component (webcam capture loop, `speak`, voice-command
  callbacks, pause/grace timers, language toggle and startup load);
- `src/services/vision.ts` (`translateHazardsToLanguage` and the
  hazard-return position of `analyzeImage` / `analyzeForNavigation`);
- `src/translations.ts` (the entries the coordination logic speaks);
- `src/components/VoiceSettings.tsx` (test playback and language load).

JavaScript machine details are made explicit: strings are Lean `String`s,
`toLowerCase` is modelled on the ASCII range (the hazard vocabulary is
ASCII), closures capture state-variable values at the render that created
them, and timers are modelled with explicit absolute firing times in
milliseconds.
-/

namespace SightSound

/-! ### JS string primitives used by the embedded code -/

/-- Models `String.prototype.toLowerCase` on one character.  Only the
ASCII range is mapped (the hazard vocabulary the code lowercases against
is pure ASCII); non-ASCII characters are left unchanged. -/
def jsToLowerChar (c : Char) : Char :=
  if 'A' ≤ c && c ≤ 'Z' then Char.ofNat (c.toNat + 32) else c

/-- Models `String.prototype.toLowerCase` (ASCII range). -/
def jsToLower (s : String) : String :=
  ⟨s.data.map jsToLowerChar⟩

/-- `startsWith needle hay`: `hay` begins with `needle` (character lists). -/
def startsWith : List Char → List Char → Bool
  | [], _ => true
  | _ :: _, [] => false
  | p :: ps, c :: cs => p == c && startsWith ps cs

/-- `containsSub needle hay`: `needle` occurs contiguously inside `hay`.
Models `String.prototype.includes`. -/
def containsSub (needle : List Char) : List Char → Bool
  | [] => startsWith needle []
  | c :: cs => startsWith needle (c :: cs) || containsSub needle cs

/-- `jsIncludes hay needle` models `hay.includes(needle)` on strings. -/
def jsIncludes (hay needle : String) : Bool :=
  containsSub needle.data hay.data

/-! ### Capture Scheduler

The App schedules analysis with a 1-second interval holding a countdown
`timeLeft` initialised to `interval = 10`:

```
if (isPaused || isSpeaking) { timeLeft = interval; return; }
if (timeLeft <= 0) { handleCapture(); timeLeft = interval; }
else { timeLeft--; }
```

The effect that installs this interval re-subscribes whenever
`handleCapture`, `isPaused` or `isSpeaking` change, which restarts the
countdown at the full interval; `runSched` below therefore quantifies
over an arbitrary starting countdown, which covers every reachable real
trace (every restart is a `runSched` run from `interval`). -/

/-- The fixed countdown length (10 one-second sub-ticks). -/
def interval : Int := 10

/-- One 1-second sub-tick of the analysis interval callback.  Returns the
new countdown and whether `handleCapture` was invoked on this tick. -/
def schedTick (isPaused isSpeaking : Bool) (timeLeft : Int) : Int × Bool :=
  if isPaused || isSpeaking then (interval, false)
  else if timeLeft ≤ 0 then (interval, true)
  else (timeLeft - 1, false)

/-- Run the scheduler over a sequence of sub-ticks; each tick carries the
`(isPaused, isSpeaking)` values at tick time.  Produces, per tick, the
countdown after the tick and whether a capture fired on it. -/
def runSched : Int → List (Bool × Bool) → List (Int × Bool)
  | _, [] => []
  | t, (p, s) :: rest =>
    let r := schedTick p s t
    r :: runSched r.1 rest

/-! ### translations.ts

Only the entries the coordination logic speaks are embedded (mode-switch
acknowledgement, hazard report, no-hazard report, analysis-error
message); the remaining entries are UI captions never passed to `speak`.
The `switchedToMode` / `detectedHazards` entries are functions in the
source and are function-valued fields here. -/

structure Trans where
  switchedToMode : String → String
  noHazards : String
  detectedHazards : List String → String
  errorAnalyzing : String

def enTrans : Trans where
  switchedToMode := fun mode => "Switched to " ++ mode ++ " mode"
  noHazards := "I don\u0027t see any immediate hazards in the scene."
  detectedHazards := fun hazards =>
    "I detected the following hazards: " ++ String.intercalate ", " hazards
  errorAnalyzing := "I\u0027m having trouble analyzing the image. Please try again."

def mlTrans : Trans where
  switchedToMode := fun mode =>
    (if mode == "scene" then "ദൃശ്യ വിവരണം" else "നാവിഗേഷൻ") ++ " മോഡിലേക്ക് മാറി"
  noHazards := "ദൃശ്യത്തിൽ അപകടങ്ങളൊന്നും കാണുന്നില്ല."
  detectedHazards := fun hazards =>
    "ഞാൻ കണ്ടെത്തിയ അപകടങ്ങൾ: " ++ String.intercalate ", " hazards
  errorAnalyzing := "ചിത്രം വിശകലനം ചെയ്യുന്നതിൽ പ്രശ്നമുണ്ട്. ദയവായി വീണ്ടും ശ്രമിക്കുക."

def hiTrans : Trans where
  switchedToMode := fun mode =>
    (if mode == "scene" then "दृश्य विवरण" else "नेविगेशन") ++ " मोड में बदल गया"
  noHazards := "दृश्य में कोई तत्काल खतरा नहीं दिखाई दे रहा है।"
  detectedHazards := fun hazards =>
    "मैंने निम्नलिखित खतरे पाए: " ++ String.intercalate ", " hazards
  errorAnalyzing := "छवि का विश्लेषण करने में समस्या है। कृपया पुनः प्रयास करें।"

/-- `translations[language]`, as used with `const t = translations[language]`.
The TypeScript type `Language = 'en' | 'ml' | 'hi'` restricts the key to
the three locales; the final catch-all (returning the English table)
is unreachable for the values the App ever holds (the C10 invariant). -/
def translationsLookup (language : String) : Trans :=
  if language == "en" then enTrans
  else if language == "ml" then mlTrans
  else if language == "hi" then hiTrans
  else enTrans

/-! ### services/vision.ts — hazard translation -/

/-- The fixed English→(Malayalam, Hindi) hazard vocabulary of
`translateHazardsToLanguage`, in source (object-insertion) order, which
is the order the translation loop checks. -/
def hazardTranslations : List (String × String × String) :=
  [("stairs", "പടികൾ", "सीढ़ियां"),
   ("step", "പടി", "सीढ़ी"),
   ("uneven surface", "അസമമായ പ്രതലം", "असमान सतह"),
   ("obstacle", "തടസ്സം", "बाधा"),
   ("moving object", "ചലിക്കുന്ന വസ്തു", "चलती वस्तु"),
   ("vehicle", "വാഹനം", "वाहन"),
   ("person", "വ്യക്തി", "व्यक्ति"),
   ("crowd", "ജനക്കൂട്ടം", "भीड़"),
   ("water", "വെള്ളം", "पानी"),
   ("hole", "കുഴി", "गड्ढा"),
   ("construction", "നിർമ്മാണം", "निर्माण"),
   ("wet floor", "നനഞ്ഞ തറ", "गीला फर्श"),
   ("traffic", "ഗതാഗതം", "यातायात"),
   ("door", "വാതിൽ", "दरवाजा"),
   ("wall", "ചുമർ", "दीवार"),
   ("furniture", "ഫർണിച്ചർ", "फर्नीचर"),
   ("glass", "ഗ്ലാസ്", "कांच"),
   ("sharp object", "മൂർച്ചയുള്ള വസ്തു", "तेज वस्तु"),
   ("electric", "വൈദ്യുതി", "बिजली"),
   ("hot surface", "ചൂടുള്ള പ്രതലം", "गर्म सतह")]

/-- `translations[language as 'ml' | 'hi'] || hazard` for one vocabulary
entry: the per-entry object holds only the `ml` and `hi` keys, so for any
other language the lookup is undefined and the `||` fallback yields the
original hazard.  (The table values are non-empty literals, so the `||`
fallback never triggers for `'ml'`/`'hi'` themselves.) -/
def hazardEntryFor (language : String) (entry : String × String × String)
    (hazard : String) : String :=
  if language == "ml" then entry.2.1
  else if language == "hi" then entry.2.2
  else hazard

/-- Body of the `hazards.map` callback of `translateHazardsToLanguage`:
lowercase the hazard, scan the vocabulary in order, and on the first
entry whose English term occurs as a substring return its mapped phrase;
otherwise return the hazard unchanged. -/
def translateHazard (language : String) (hazard : String) : String :=
  let lowerHazard := jsToLower hazard
  match hazardTranslations.find? (fun e => jsIncludes lowerHazard e.1) with
  | some e => hazardEntryFor language e hazard
  | none => hazard

def translateHazardsToLanguage (hazards : List String) (language : String) :
    List String :=
  hazards.map (translateHazard language)

/-- The hazards field of the objects returned by `analyzeImage` and
`analyzeForNavigation`:
`language === 'en' ? hazards : translateHazardsToLanguage(hazards, language)`. -/
def returnedHazards (language : String) (hazards : List String) : List String :=
  if language == "en" then hazards
  else translateHazardsToLanguage hazards language

/-! ### Language state: cycling and persistence

The App holds `language` as a string of the TypeScript union
`'en' | 'ml' | 'hi'`; it is modelled as a plain `String` here so that the
startup validation against untrusted `localStorage` content is a real
statement (the C10 invariant). -/

/-- The rotation list of `handleLanguageToggle`:
`const languages: Language[] = ["en", "hi", "ml"]`. -/
def cycleLanguages : List String := ["en", "hi", "ml"]

/-- The supported-locale list both startup effects validate against:
`["en", "ml", "hi"].includes(savedLang)`. -/
def supportedLanguages : List String := ["en", "ml", "hi"]

/-- `Array.prototype.indexOf`: index of the first occurrence, `-1` when
absent. -/
def jsIndexOfStr (xs : List String) (x : String) : Int :=
  match xs.findIdx? (· == x) with
  | some i => (i : Int)
  | none => -1

/-- The new language computed by `handleLanguageToggle`:
`languages[(languages.indexOf(language) + 1) % languages.length]`.
The index is always in range (for an absent value `indexOf` gives `-1`
and the successor index is `0`), so the `getD` default is unreachable. -/
def nextLangCode (language : String) : String :=
  let currentIndex := jsIndexOfStr cycleLanguages language
  let nextIndex := (currentIndex + 1) % 3
  cycleLanguages.getD nextIndex.toNat "en"

/-- `handleLanguageToggle`: returns the new language state together with
the value written to `localStorage.setItem("language", newLang)`. -/
def handleLanguageToggle (language : String) : String × String :=
  let newLang := nextLangCode language
  (newLang, newLang)

/-- The startup language-load effect (and the identical effect in
`VoiceSettings`): `const savedLang = localStorage.getItem("language")`;
`if (savedLang && ["en", "ml", "hi"].includes(savedLang))
setLanguage(savedLang)`.  `stored = none` models a missing key; an empty
string is JS-falsy but also fails the `includes` test, so the membership
check alone is faithful. -/
def loadLanguage (stored : Option String) (current : String) : String :=
  match stored with
  | some savedLang =>
    if savedLang ∈ supportedLanguages then savedLang else current
  | none => current

/-- The initial language state: `useState<Language>("en")`. -/
def initialLanguage : String := "en"

/-! ### Mode, analysis results and `handleCapture` -/

/-- `useState<"scene" | "navigation">` values. -/
inductive Mode
  | scene
  | navigation
deriving DecidableEq

/-- The string the mode union member denotes. -/
def modeCode : Mode → String
  | .scene => "scene"
  | .navigation => "navigation"

/-- The App's `analysis` state:
`{ objects: string[]; description: string; hazards: string[]; navigation?: string }`. -/
structure AnalysisState where
  objects : List String
  description : String
  hazards : List String
  navigation : Option String
deriving DecidableEq

/-- Result shape of `analyzeImage` (scene mode). -/
structure SceneResult where
  objects : List String
  description : String
  hazards : List String
deriving DecidableEq

/-- Result shape of `analyzeForNavigation`. -/
structure NavResult where
  navigation : String
  hazards : List String
deriving DecidableEq

/-- How the awaited part of one `handleCapture` invocation settles:
`noImage` is `getScreenshot()` returning null (early return inside the
`try`), `failure` is the vision call rejecting (the `catch` branch), and
the two `Ok` forms are the resolved results per mode. -/
inductive CaptureOutcome
  | noImage
  | failure
  | sceneOk (result : SceneResult)
  | navOk (result : NavResult)
deriving DecidableEq

/-- Observable effects of one `handleCapture` invocation: the stored
`analysis` state afterwards, the `speak(text, isCommand)` call it makes
(if any), whether `setIsCapturing(true)` ran (the guard passed), and the
`isCapturing` value afterwards (the `finally` clause resets it on every
path that entered; the early-return path never set it). -/
structure CaptureEffects where
  analysis : Option AnalysisState
  spoken : Option (String × Bool)
  entered : Bool
  capturingAfter : Bool
deriving DecidableEq

/-- `handleCapture`, embedded per invocation.  `isPaused` / `isSpeaking`
are the values captured by the `useCallback` closure at the render that
created the callback; within one invocation they are constants, so the
entry guard and the post-await auto-speak guard read the same two
values (JS closures do not re-read React state).  The world state at
resolution time is modelled separately by `wStep` below.  `prev` is the
analysis state at resolution time (the `setAnalysis` updater reads the
fresh previous value).  The source branches on
`mode === "navigation"` to pick which analyze call to await; here the
awaited call's settled value is the `CaptureOutcome` constructor itself,
so the mode argument is recorded but not re-inspected. -/
def handleCapture (webcamPresent isPaused isSpeaking : Bool) (_mode : Mode)
    (language : String) (outcome : CaptureOutcome)
    (prev : Option AnalysisState) : CaptureEffects :=
  if !webcamPresent || isPaused || isSpeaking then
    { analysis := prev, spoken := none, entered := false, capturingAfter := false }
  else
    let t := translationsLookup language
    match outcome with
    | .noImage =>
      { analysis := prev, spoken := none, entered := true, capturingAfter := false }
    | .failure =>
      { analysis := prev, spoken := some (t.errorAnalyzing, true),
        entered := true, capturingAfter := false }
    | .navOk result =>
      { analysis := some
          { objects := (prev.map (·.objects)).getD [],
            description := (prev.map (·.description)).getD "",
            hazards := result.hazards,
            navigation := some result.navigation },
        spoken :=
          if !isPaused && !isSpeaking then
            some ((if result.hazards.length > 0 then
                     t.detectedHazards result.hazards ++ ". " ++ result.navigation
                   else result.navigation), false)
          else none,
        entered := true, capturingAfter := false }
    | .sceneOk result =>
      { analysis := some
          { objects := result.objects, description := result.description,
            hazards := result.hazards, navigation := none },
        spoken :=
          if !isPaused && !isSpeaking then
            some ((if result.hazards.length > 0 then
                     t.detectedHazards result.hazards ++ ". " ++ result.description
                   else result.description), false)
          else none,
        entered := true, capturingAfter := false }

/-! ### Resolution-time world machine

Relates the state of the world when an in-flight analysis resolves to
the closure values `handleCapture` actually reads.  A `dispatch`
snapshots the flags, mode and language into the closure; `ackStarts`
models a command acknowledgement utterance starting mid-flight (its
`onstart` sets `isSpeaking = true`); `resolve` runs the remainder of the
in-flight invocation with the snapshotted closure values against the
fresh world analysis state. -/

structure World where
  isPaused : Bool
  isSpeaking : Bool
  mode : Mode
  language : String
  analysis : Option AnalysisState
  inFlight : Option (Bool × Bool × Mode × String)
  spokenLog : List (String × Bool)
deriving DecidableEq

inductive WEvent
  | dispatch
  | ackStarts
  | resolve (outcome : CaptureOutcome)
deriving DecidableEq

def wStep (w : World) : WEvent → World
  | .dispatch =>
    if w.isPaused || w.isSpeaking then w
    else { w with inFlight := some (w.isPaused, w.isSpeaking, w.mode, w.language) }
  | .ackStarts => { w with isSpeaking := true }
  | .resolve outcome =>
    match w.inFlight with
    | none => w
    | some (p, s, m, lang) =>
      let eff := handleCapture true p s m lang outcome w.analysis
      { w with inFlight := none, analysis := eff.analysis,
               spokenLog := w.spokenLog ++ eff.spoken.toList }

def runWorld (w : World) (events : List WEvent) : World :=
  events.foldl wStep w

def initWorld : World :=
  { isPaused := false, isSpeaking := false, mode := .scene, language := "en",
    analysis := none, inFlight := none, spokenLog := [] }

/-! ### Speech output channel (App `speak` / VoiceSettings test playback)

`speechRefSet` models `speechRef.current !== null`: the App's `speak`
assigns `speechRef.current` on every invocation and nothing ever nulls
it.  `playing` is the synthesis engine queue of live (started or queued,
neither cancelled nor ended) utterance ids in order; `cancelled`
collects ids removed by `window.speechSynthesis.cancel()`. -/

structure SpeechSt where
  speechRefSet : Bool
  playing : List Nat
  cancelled : List Nat
  nextId : Nat
deriving DecidableEq

inductive SpkEvent
  | appSpeak
  | testSpeak
  | uttEnd
deriving DecidableEq

/-- One speech-channel event.  `appSpeak` is the App's
`speak(text, isCommand)`: `if (speechRef.current) speechSynthesis.cancel()`,
then a new utterance is created, assigned to `speechRef.current` and
passed to `speechSynthesis.speak` (which queues it).  `testSpeak` is
`updateVoiceSettings` in `VoiceSettings`: `speechSynthesis.cancel()`
unconditionally, then `speechSynthesis.speak(utterance)` — without
touching `speechRef`.  `uttEnd` is the front utterance finishing
naturally. -/
def spkStep (s : SpeechSt) : SpkEvent → SpeechSt
  | .appSpeak =>
    let s1 := if s.speechRefSet then
        { s with cancelled := s.cancelled ++ s.playing, playing := [] }
      else s
    { s1 with speechRefSet := true, playing := s1.playing ++ [s.nextId],
              nextId := s.nextId + 1 }
  | .testSpeak =>
    { s with cancelled := s.cancelled ++ s.playing, playing := [s.nextId],
             nextId := s.nextId + 1 }
  | .uttEnd => { s with playing := s.playing.drop 1 }

def initSpeech : SpeechSt :=
  { speechRefSet := false, playing := [], cancelled := [], nextId := 0 }

def runSpeech (s : SpeechSt) (events : List SpkEvent) : SpeechSt :=
  events.foldl spkStep s

/-! ### Pause grace timer (`speak` onend / `pauseTimeoutRef`)

Millisecond-timestamped events on the timer that clears `isPaused`:
`cmdArrives` is the recognizer matching a voice command (the command
callback runs and `speak(ack, true)` begins — nothing in that path reads
or clears `pauseTimeoutRef`); `feedbackEnds` is the `onend` of an
utterance spoken with `isCommand = true`, which runs
`clearTimeout(pauseTimeoutRef.current)` and schedules
`setIsPaused(false)` 2000 ms out. -/

inductive PEvent
  | cmdArrives
  | feedbackEnds
deriving DecidableEq

/-- The absolute times at which the scheduled `setIsPaused(false)`
callbacks actually run, given the current `pauseTimeoutRef` deadline and
the remaining (time-ordered) events.  A pending deadline not cleared
before the next event's time fires first; a deadline outliving all
events fires at its scheduled time. -/
def pauseFires : Option Nat → List (Nat × PEvent) → List Nat
  | some f, [] => [f]
  | none, [] => []
  | some f, (t, ev) :: rest =>
    if f ≤ t then
      f :: (match ev with
            | .cmdArrives => pauseFires none rest
            | .feedbackEnds => pauseFires (some (t + 2000)) rest)
    else
      (match ev with
       | .cmdArrives => pauseFires (some f) rest
       | .feedbackEnds => pauseFires (some (t + 2000)) rest)
  | none, (t, ev) :: rest =>
    match ev with
    | .cmdArrives => pauseFires none rest
    | .feedbackEnds => pauseFires (some (t + 2000)) rest

/-- Modelled from the spec sentence (NOT from the source), for
comparison: "`isPaused` becomes false after exactly the fixed grace
delay, unless a new command arrives first (which restarts the delay)" —
here the command's arrival itself cancels a pending deadline. -/
def claimPauseFires : Option Nat → List (Nat × PEvent) → List Nat
  | some f, [] => [f]
  | none, [] => []
  | some f, (t, ev) :: rest =>
    if f ≤ t then
      f :: (match ev with
            | .cmdArrives => claimPauseFires none rest
            | .feedbackEnds => claimPauseFires (some (t + 2000)) rest)
    else
      (match ev with
       | .cmdArrives => claimPauseFires none rest
       | .feedbackEnds => claimPauseFires (some (t + 2000)) rest)
  | none, (t, ev) :: rest =>
    match ev with
    | .cmdArrives => claimPauseFires none rest
    | .feedbackEnds => claimPauseFires (some (t + 2000)) rest

/-- The times of the `feedbackEnds` events of a trace, in order. -/
def endTimes : List (Nat × PEvent) → List Nat
  | [] => []
  | (t, .feedbackEnds) :: rest => t :: endTimes rest
  | (_, .cmdArrives) :: rest => endTimes rest

/-- Closed-form description of the code's firing times in terms of the
feedback-end times alone: each end fires 2000 ms later unless another
end occurs before that moment (which cancels and restarts the delay). -/
def charFires : List Nat → List Nat
  | [] => []
  | [t] => [t + 2000]
  | t :: t' :: rest =>
    if t + 2000 ≤ t' then (t + 2000) :: charFires (t' :: rest)
    else charFires (t' :: rest)

/-- Event timestamps are non-decreasing and bounded below. -/
def timeOrderedB : Nat → List (Nat × PEvent) → Bool
  | _, [] => true
  | lb, (t, _) :: rest => decide (lb ≤ t) && timeOrderedB t rest

/-! ### Voice-command callbacks -/

/-- Coordinator state the command callbacks touch, together with the
`localStorage` "language" key. -/
structure CoordState where
  mode : Mode
  language : String
  isPaused : Bool
  analysis : Option AnalysisState
  store : Option String
deriving DecidableEq

/-- The four commands of the `useSpeechRecognition` command table. -/
inductive Command
  | switchToNavigation
  | switchToScene
  | queryHazards
  | cycleLanguage
deriving DecidableEq

/-- `handleModeSwitch(newMode)`: `setMode(newMode)` then
`speak(t.switchedToMode(newMode), true)` (plus telemetry).  The
acknowledgement is built from the new mode and the current language.
The function contains no `setIsPaused` call. -/
def handleModeSwitch (newMode : Mode) (s : CoordState) :
    CoordState × Option (String × Bool) :=
  ({ s with mode := newMode },
   some ((translationsLookup s.language).switchedToMode (modeCode newMode), true))

/-- The `"hazards"` command callback: `if (analysis?.hazards)` — with no
analysis yet nothing happens; otherwise it speaks the hazard report or
the no-hazard message with `isCommand = true` (plus telemetry).  It
mutates no state and contains no `setIsPaused` call. -/
def hazardsCallback (s : CoordState) : CoordState × Option (String × Bool) :=
  match s.analysis with
  | none => (s, none)
  | some a =>
    let t := translationsLookup s.language
    (s, some ((if a.hazards.length > 0 then t.detectedHazards a.hazards
               else t.noHazards), true))

/-- The `"switch language"` command callback is `handleLanguageToggle`
itself: advance the language, persist it, log telemetry.  It calls
`speak` nowhere and contains no `setIsPaused` call. -/
def languageToggleCallback (s : CoordState) :
    CoordState × Option (String × Bool) :=
  let r := handleLanguageToggle s.language
  ({ s with language := r.1, store := some r.2 }, none)

/-- Dispatch of a recognized voice command to its callback; the second
component is the `speak(text, isCommand)` call the callback makes. -/
def runCommand (s : CoordState) : Command → CoordState × Option (String × Bool)
  | .switchToNavigation => handleModeSwitch .navigation s
  | .switchToScene => handleModeSwitch .scene s
  | .queryHazards => hazardsCallback s
  | .cycleLanguage => languageToggleCallback s

def initCoordState : CoordState :=
  { mode := .scene, language := "en", isPaused := false,
    analysis := none, store := none }

end SightSound

open SightSound

/-- C1: whenever `isPaused` or `isSpeaking` is true at a 1-second
sub-tick, no capture fires on that tick and the countdown is reset to the
full 10-step interval — for every tick sequence and every starting
countdown, so an active pause or speech continuously defers the next
capture rather than queuing it. -/
theorem C1_pause_or_speech_defers_capture
    (t0 : Int) (ticks : List (Bool × Bool)) (i : Nat)
    (hi : i < ticks.length)
    (hflag : (ticks.getD i (false, false)).1 = true ∨
             (ticks.getD i (false, false)).2 = true) :
    (runSched t0 ticks).getD i (0, true) = (interval, false) := by
  induction ticks generalizing t0 i with
  | nil => exact absurd hi (by simp)
  | cons hd tl ih =>
    cases i with
    | zero =>
      obtain ⟨p, s⟩ := hd
      rcases hflag with h | h <;>
        simp_all [runSched, schedTick]
    | succ j =>
      have hj : j < tl.length := Nat.lt_of_succ_lt_succ hi
      simpa [runSched] using ih _ j hj (by simpa using hflag)

/-- C1 witness: a concrete tick with `isSpeaking = true` at countdown 0
(the tick that would otherwise fire) resets to 10 and does not capture. -/
theorem C1_pause_or_speech_defers_capture_witness :
    (0 : Nat) < ([((false : Bool), (true : Bool))] : List (Bool × Bool)).length ∧
    (runSched 0 [((false : Bool), (true : Bool))]).getD 0 (0, true) = (interval, false) :=
  ⟨by decide,
   C1_pause_or_speech_defers_capture 0 [(false, true)] 0 (by decide) (by decide)⟩

/-- Helper: a satisfied `find?` predicate yields a first witness. -/
theorem find?_exists_of_exists {α : Type} (p : α → Bool) (l : List α)
    (h : ∃ x ∈ l, p x = true) :
    ∃ e, l.find? p = some e ∧ e ∈ l ∧ p e = true := by
  induction l with
  | nil => simp at h
  | cons a as ih =>
    by_cases ha : p a = true
    · exact ⟨a, by simp [List.find?, ha], by simp, ha⟩
    · obtain ⟨x, hx, hpx⟩ := h
      rcases List.mem_cons.mp hx with rfl | hx'
      · exact absurd hpx ha
      · obtain ⟨e, hfind, hmem, hpe⟩ := ih ⟨x, hx', hpx⟩
        exact ⟨e, by simp [List.find?, Bool.of_not_eq_true ha, hfind], .tail _ hmem, hpe⟩

/-- C7: hazard translation.  For the default language the hazards are
returned untranslated; for a non-default language every hazard is mapped
individually; a hazard whose lowercasing contains no vocabulary term
passes through unchanged; and a hazard whose lowercasing contains some
vocabulary term is replaced with the exact mapped target-language phrase
of a contained term (the first such term in table order). -/
theorem C7_hazard_translation
    (language hazard : String) (hazards : List String)
    (hlang : language = "ml" ∨ language = "hi") :
    returnedHazards "en" hazards = hazards ∧
    returnedHazards language hazards = hazards.map (translateHazard language) ∧
    ((∀ e ∈ hazardTranslations, jsIncludes (jsToLower hazard) e.1 = false) →
      translateHazard language hazard = hazard) ∧
    ((∃ e ∈ hazardTranslations, jsIncludes (jsToLower hazard) e.1 = true) →
      ∃ e ∈ hazardTranslations, jsIncludes (jsToLower hazard) e.1 = true ∧
        translateHazard language hazard =
          (if language = "ml" then e.2.1 else e.2.2)) := by
  refine ⟨rfl, ?_, ?_, ?_⟩
  · rcases hlang with rfl | rfl <;> rfl
  · intro hall
    have hnone : hazardTranslations.find?
        (fun e => jsIncludes (jsToLower hazard) e.1) = none :=
      List.find?_eq_none.mpr (by intro x hx; simp [hall x hx])
    simp [translateHazard, hnone]
  · intro hex
    obtain ⟨e, hfind, hmem, hpe⟩ :=
      find?_exists_of_exists (fun e => jsIncludes (jsToLower hazard) e.1)
        hazardTranslations hex
    refine ⟨e, hmem, hpe, ?_⟩
    rcases hlang with rfl | rfl <;>
      simp [translateHazard, hfind, hazardEntryFor]

/-- C7 witness: in Malayalam, "Stairs ahead" (containing the vocabulary
term "stairs") is replaced by the mapped phrase, while "banana" passes
through unchanged, and the English return position is untouched. -/
theorem C7_hazard_translation_witness :
    ("ml" = "ml" ∨ "ml" = "hi") ∧
    (returnedHazards "en" ["Stairs ahead"] = ["Stairs ahead"] ∧
     returnedHazards "ml" ["Stairs ahead"] =
       ["Stairs ahead"].map (translateHazard "ml") ∧
     ((∀ e ∈ hazardTranslations,
         jsIncludes (jsToLower "Stairs ahead") e.1 = false) →
       translateHazard "ml" "Stairs ahead" = "Stairs ahead") ∧
     ((∃ e ∈ hazardTranslations,
         jsIncludes (jsToLower "Stairs ahead") e.1 = true) →
       ∃ e ∈ hazardTranslations,
         jsIncludes (jsToLower "Stairs ahead") e.1 = true ∧
         translateHazard "ml" "Stairs ahead" =
           (if "ml" = "ml" then e.2.1 else e.2.2))) ∧
    translateHazard "ml" "banana" = "banana" ∧
    translateHazard "ml" "Stairs ahead" = "പടികൾ" :=
  ⟨Or.inl rfl,
   C7_hazard_translation "ml" "Stairs ahead" ["Stairs ahead"] (Or.inl rfl),
   by decide, by decide⟩

/-- C8: language cycling visits the fixed rotation order en → hi → ml
exactly, wrapping after the last entry (ml) back to the first (en); the
toggle persists the new value, and the startup load of that persisted
value resumes with the same language whatever the pre-load default is. -/
theorem C8_language_cycle_rotation_and_persistence :
    (handleLanguageToggle "en").1 = "hi" ∧
    (handleLanguageToggle "hi").1 = "ml" ∧
    (handleLanguageToggle "ml").1 = "en" ∧
    (∀ language : String,
      (handleLanguageToggle language).2 = (handleLanguageToggle language).1) ∧
    (∀ d : String,
      loadLanguage (some (handleLanguageToggle "en").2) d = "hi" ∧
      loadLanguage (some (handleLanguageToggle "hi").2) d = "ml" ∧
      loadLanguage (some (handleLanguageToggle "ml").2) d = "en") :=
  ⟨rfl, rfl, rfl, fun _ => rfl, fun _ => ⟨rfl, rfl, rfl⟩⟩

/-- C10: the language state stays inside the supported set {en, ml, hi}:
it initialises to "en"; the startup load keeps the current value on a
missing or invalid stored string and adopts exactly the validated member
otherwise; and cycling maps the set into itself. -/
theorem C10_language_always_supported :
    (initialLanguage = "en" ∧ initialLanguage ∈ supportedLanguages) ∧
    (∀ s : String, loadLanguage none s = s) ∧
    (∀ s v : String, v ∉ supportedLanguages → loadLanguage (some v) s = s) ∧
    (∀ s v : String, v ∈ supportedLanguages → loadLanguage (some v) s = v) ∧
    (∀ s : String, s ∈ supportedLanguages →
      nextLangCode s ∈ supportedLanguages) := by
  refine ⟨⟨rfl, by decide⟩, fun s => rfl, ?_, ?_, ?_⟩
  · intro s v hv
    simp [loadLanguage, hv]
  · intro s v hv
    simp [loadLanguage, hv]
  · intro s hs
    have : s = "en" ∨ s = "ml" ∨ s = "hi" := by
      simpa [supportedLanguages] using hs
    rcases this with rfl | rfl | rfl <;> decide

/-- C10 witness: an invalid stored value leaves the default unchanged, a
valid one is adopted, and cycling "ml" lands inside the supported set. -/
theorem C10_language_always_supported_witness :
    ("zz" ∉ supportedLanguages ∧ loadLanguage (some "zz") "en" = "en") ∧
    ("hi" ∈ supportedLanguages ∧ loadLanguage (some "hi") "en" = "hi") ∧
    ("ml" ∈ supportedLanguages ∧ nextLangCode "ml" ∈ supportedLanguages) :=
  ⟨⟨by decide, C10_language_always_supported.2.2.1 "en" "zz" (by decide)⟩,
   ⟨by decide, C10_language_always_supported.2.2.2.1 "en" "hi" (by decide)⟩,
   ⟨by decide, C10_language_always_supported.2.2.2.2 "ml" (by decide)⟩⟩

/-- C2 counterexample: from a fresh session, the voice-settings test
playback starts utterance 0; the App's first `speak` invocation then
starts utterance 1 without cancelling anything — `speechRef.current` is
still null, so the `if (speechRef.current) cancel()` guard skips — and
both utterances are live in the engine queue, refuting "every invocation
of the speak operation cancels any currently playing utterance before
starting the new one". -/
theorem C2_first_speak_skips_cancel :
    (runSpeech initSpeech [.testSpeak, .appSpeak]).playing = [0, 1] ∧
    (runSpeech initSpeech [.testSpeak, .appSpeak]).cancelled = [] ∧
    ¬(0 ∈ (runSpeech initSpeech [.testSpeak, .appSpeak]).cancelled) := by
  decide

/-- C2 amended: every speak invocation cancels all in-flight utterances
before starting the new one — the test playback unconditionally, the
App's `speak` whenever its utterance ref is already set (i.e. on every
invocation after its first); only the App's very first `speak` skips the
cancel.  After such an invocation exactly the new utterance is live and
every previously live utterance has been cancelled. -/
theorem C2_speak_cancels_in_flight (s : SpeechSt) (ev : SpkEvent)
    (h : ev = .testSpeak ∨ (ev = .appSpeak ∧ s.speechRefSet = true)) :
    (spkStep s ev).playing = [s.nextId] ∧
    ∀ u ∈ s.playing, u ∈ (spkStep s ev).cancelled := by
  rcases h with rfl | ⟨rfl, href⟩
  · exact ⟨rfl, fun u hu => by simp [spkStep, hu]⟩
  · refine ⟨by simp [spkStep, href], fun u hu => by simp [spkStep, href, hu]⟩

/-- C2 witness: a second App `speak` while utterance 5 is in flight
cancels it and leaves only the new utterance live. -/
theorem C2_speak_cancels_in_flight_witness :
    ((SpkEvent.appSpeak = SpkEvent.testSpeak ∨
      (SpkEvent.appSpeak = SpkEvent.appSpeak ∧
        (SpeechSt.mk true [5] [] 6).speechRefSet = true)) ∧
     (spkStep (SpeechSt.mk true [5] [] 6) .appSpeak).playing = [6] ∧
     ∀ u ∈ (SpeechSt.mk true [5] [] 6).playing,
       u ∈ (spkStep (SpeechSt.mk true [5] [] 6) .appSpeak).cancelled) :=
  ⟨Or.inr ⟨rfl, rfl⟩,
   C2_speak_cancels_in_flight (SpeechSt.mk true [5] [] 6) .appSpeak
     (Or.inr ⟨rfl, rfl⟩)⟩

/-- C3 (code evaluation): no voice-command callback ever sets
`isPaused = true` — every handler leaves `isPaused` exactly as it was —
and the cycle-language callback speaks no acknowledgement at all.  In
particular, on the recognized "switch language" and "switch to
navigation" commands from the initial state, `isPaused` stays false;
the mode-switch acknowledgement that is spoken does reflect the new
mode. -/
theorem C3_no_command_sets_paused :
    (∀ (s : CoordState) (c : Command),
      (runCommand s c).1.isPaused = s.isPaused) ∧
    (∀ s : CoordState, (runCommand s .cycleLanguage).2 = none) ∧
    (runCommand initCoordState .cycleLanguage).1.isPaused = false ∧
    (runCommand initCoordState .switchToNavigation).1.isPaused = false ∧
    (runCommand initCoordState .switchToNavigation).1.mode = .navigation ∧
    (runCommand initCoordState .switchToNavigation).2 =
      some ((translationsLookup "en").switchedToMode (modeCode .navigation),
        true) := by
  refine ⟨?_, fun s => rfl, rfl, rfl, rfl, rfl⟩
  intro s c
  cases c with
  | switchToNavigation => rfl
  | switchToScene => rfl
  | queryHazards =>
    cases h : s.analysis <;> simp [runCommand, hazardsCallback, h]
  | cycleLanguage => rfl

/-- C4 (code evaluation): a capture dispatched with both flags false,
with a command acknowledgement starting mid-flight (`isSpeaking = true`
at resolution time), still auto-speaks its result: the post-await guard
reads the closure-captured dispatch-time values, not the resolution-time
state.  The result is stored, and the spoken message composition is the
bare description when no hazards, and the hazard-prefixed composition
when hazards are present (second trace, no intervening command). -/
theorem C4_stale_guard_speaks_despite_speaking :
    (runWorld initWorld [.dispatch, .ackStarts,
        .resolve (.sceneOk ⟨["desk"], "A desk with a monitor.", []⟩)]).isSpeaking
      = true ∧
    (runWorld initWorld [.dispatch, .ackStarts,
        .resolve (.sceneOk ⟨["desk"], "A desk with a monitor.", []⟩)]).analysis
      = some ⟨["desk"], "A desk with a monitor.", [], none⟩ ∧
    (runWorld initWorld [.dispatch, .ackStarts,
        .resolve (.sceneOk ⟨["desk"], "A desk with a monitor.", []⟩)]).spokenLog
      = [("A desk with a monitor.", false)] ∧
    (runWorld initWorld [.dispatch,
        .resolve (.sceneOk ⟨[], "A desk with a monitor.", ["stairs"]⟩)]).spokenLog
      = [("I detected the following hazards: stairs. A desk with a monitor.",
          false)] := by
  refine ⟨rfl, rfl, rfl, ?_⟩
  rfl

/-- C6: when the awaited vision call rejects, `handleCapture` leaves the
stored analysis untouched, speaks exactly the fixed localized
`errorAnalyzing` message of the active language, and exits the Capturing
state (the `finally` clears `isCapturing`); the scheduler is untouched
by the failure, so a later tick with clear flags and an expired
countdown fires a capture as normal. -/
theorem C6_failure_speaks_error_keeps_analysis (language : String)
    (mode : Mode) (prev : Option AnalysisState) :
    (handleCapture true false false mode language .failure prev).analysis
      = prev ∧
    (handleCapture true false false mode language .failure prev).spoken
      = some ((translationsLookup language).errorAnalyzing, true) ∧
    (handleCapture true false false mode language .failure prev).entered
      = true ∧
    (handleCapture true false false mode language .failure prev).capturingAfter
      = false ∧
    schedTick false false 0 = (interval, true) :=
  ⟨rfl, rfl, rfl, rfl, rfl⟩

/-- C9 counterexample: a scene analysis of frame 1 (description
"A desk with a monitor.", hazards ["glass"]) followed by a navigation
analysis of frame 2 (hazards ["stairs"]) leaves a stored result whose
hazards come from frame 2 while its description (and objects) still come
from frame 1 — the description is neither omitted nor derived from the
same captured frame as the hazards list. -/
theorem C9_nav_merge_mixes_frames :
    (handleCapture true false false .navigation "en"
        (.navOk ⟨"Move forward.", ["stairs"]⟩)
        (handleCapture true false false .scene "en"
          (.sceneOk ⟨["desk"], "A desk with a monitor.", ["glass"]⟩)
          none).analysis).analysis
      = some ⟨["desk"], "A desk with a monitor.", ["stairs"],
              some "Move forward."⟩ ∧
    ¬((handleCapture true false false .navigation "en"
        (.navOk ⟨"Move forward.", ["stairs"]⟩)
        (handleCapture true false false .scene "en"
          (.sceneOk ⟨["desk"], "A desk with a monitor.", ["glass"]⟩)
          none).analysis).analysis.map (·.description) = some "") := by
  exact ⟨rfl, by decide⟩

/-- C9 amended: after a scene-mode analysis every stored field comes from
the new frame and `navigation` is omitted; after a navigation-mode
analysis `hazards` and `navigation` come from the new frame while
`objects` and `description` are carried over unchanged from the previous
stored result (empty when there is none) — so after a navigation
analysis that follows a scene analysis, the description and the hazards
list derive from different frames. -/
theorem C9_merge_field_provenance (language : String)
    (prev : AnalysisState) (optPrev : Option AnalysisState)
    (rs : SceneResult) (rn : NavResult) :
    (handleCapture true false false .scene language (.sceneOk rs)
        optPrev).analysis
      = some ⟨rs.objects, rs.description, rs.hazards, none⟩ ∧
    (handleCapture true false false .navigation language (.navOk rn)
        (some prev)).analysis
      = some ⟨prev.objects, prev.description, rn.hazards,
              some rn.navigation⟩ ∧
    (handleCapture true false false .navigation language (.navOk rn)
        none).analysis
      = some ⟨[], "", rn.hazards, some rn.navigation⟩ :=
  ⟨rfl, rfl, rfl⟩

/-- Helper: the first feedback-end time of a time-ordered trace is at
least the lower bound. -/
theorem endTimes_head_le (tr : List (Nat × PEvent)) :
    ∀ lb e es, timeOrderedB lb tr = true → endTimes tr = e :: es → lb ≤ e := by
  induction tr with
  | nil => intro lb e es _ h; simp [endTimes] at h
  | cons hd r ih =>
    obtain ⟨t, ev⟩ := hd
    intro lb e es hord hends
    simp [timeOrderedB] at hord
    cases ev with
    | cmdArrives =>
      simp [endTimes] at hends
      exact le_trans hord.1 (ih t e es hord.2 hends)
    | feedbackEnds =>
      simp [endTimes] at hends
      exact hends.1 ▸ hord.1

/-- Helper: lowering the bound preserves time-orderedness. -/
theorem timeOrderedB_weaken (t u : Nat) (r : List (Nat × PEvent))
    (htu : t ≤ u) (h : timeOrderedB u r = true) :
    timeOrderedB t r = true := by
  cases r with
  | nil => rfl
  | cons hd rest =>
    obtain ⟨v, ev⟩ := hd
    simp [timeOrderedB] at h ⊢
    exact ⟨le_trans htu h.1, h.2⟩

/-- Helper: on time-ordered traces the firing times of the grace-delay
timer are exactly `charFires` of the feedback-end times — command
arrivals are irrelevant, and a pending delay is cancelled (and replaced)
only by a feedback end occurring before it elapses. -/
theorem pauseFires_charFires (tr : List (Nat × PEvent)) :
    (∀ lb, timeOrderedB lb tr = true →
      pauseFires none tr = charFires (endTimes tr)) ∧
    (∀ t, timeOrderedB t tr = true →
      pauseFires (some (t + 2000)) tr = charFires (t :: endTimes tr)) := by
  induction tr with
  | nil => exact ⟨fun _ _ => rfl, fun _ _ => rfl⟩
  | cons hd r ih =>
    obtain ⟨u, ev⟩ := hd
    obtain ⟨Pr, Qr⟩ := ih
    constructor
    · intro lb h
      simp [timeOrderedB] at h
      cases ev with
      | cmdArrives => simpa [pauseFires, endTimes] using Pr u h.2
      | feedbackEnds => simpa [pauseFires, endTimes] using Qr u h.2
    · intro t h
      simp [timeOrderedB] at h
      cases ev with
      | cmdArrives =>
        by_cases hf : t + 2000 ≤ u
        · have hrest := Pr u h.2
          cases he : endTimes r with
          | nil => simp [pauseFires, hf, endTimes, he, charFires, hrest]
          | cons e es =>
            have hue : u ≤ e := endTimes_head_le r u e es h.2 he
            have hte : t + 2000 ≤ e := le_trans hf hue
            simp [pauseFires, hf, endTimes, he, charFires, hte, hrest]
        · have hw : timeOrderedB t r = true :=
            timeOrderedB_weaken t u r h.1 h.2
          simpa [pauseFires, hf, endTimes] using Qr t hw
      | feedbackEnds =>
        by_cases hf : t + 2000 ≤ u
        · have hrest := Qr u h.2
          simp [pauseFires, hf, endTimes, charFires, hrest]
        · have hrest := Qr u h.2
          simp [pauseFires, hf, endTimes, charFires, hrest]

/-- C5 counterexample: a command-feedback utterance ends at 0 ms
(scheduling the un-pause for 2000 ms), a new command arrives at 1000 ms,
and the new feedback utterance ends at 3000 ms.  The claim predicts the
pending delay is cancelled by the arrival (no firing at 2000, only at
5000); the code fires at 2000 anyway — `speak` and the command callbacks
never touch `pauseTimeoutRef`, which is cleared only inside a later
`onend`. -/
theorem C5_command_arrival_does_not_cancel :
    pauseFires none
      [(0, .feedbackEnds), (1000, .cmdArrives), (3000, .feedbackEnds)]
      = [2000, 5000] ∧
    claimPauseFires none
      [(0, .feedbackEnds), (1000, .cmdArrives), (3000, .feedbackEnds)]
      = [5000] ∧
    2000 ∈ pauseFires none
      [(0, .feedbackEnds), (1000, .cmdArrives), (3000, .feedbackEnds)] := by
  decide

/-- C5 amended: after a command-feedback utterance ends,
`setIsPaused(false)` runs exactly 2000 ms later, unless another
command-feedback utterance ends strictly before that moment, which
cancels the pending delay and restarts it from its own end; the mere
arrival of a new command does not cancel the pending delay (cancellation
happens only at the new feedback utterance's `onend`, which may come
after the old delay has already fired). -/
theorem C5_grace_delay_restarted_only_by_feedback_end
    (tr : List (Nat × PEvent)) (lb : Nat)
    (h : timeOrderedB lb tr = true) :
    pauseFires none tr = charFires (endTimes tr) :=
  (pauseFires_charFires tr).1 lb h

/-- C5 witness: the characterization evaluated on the counterexample
trace. -/
theorem C5_grace_delay_restarted_only_by_feedback_end_witness :
    timeOrderedB 0 [(0, PEvent.feedbackEnds), (1000, PEvent.cmdArrives),
      (3000, PEvent.feedbackEnds)] = true ∧
    pauseFires none [(0, PEvent.feedbackEnds), (1000, PEvent.cmdArrives),
      (3000, PEvent.feedbackEnds)]
      = charFires (endTimes [(0, PEvent.feedbackEnds),
          (1000, PEvent.cmdArrives), (3000, PEvent.feedbackEnds)]) :=
  ⟨by decide,
   C5_grace_delay_restarted_only_by_feedback_end
     [(0, PEvent.feedbackEnds), (1000, PEvent.cmdArrives),
      (3000, PEvent.feedbackEnds)] 0 (by decide)⟩
